import Mathlib

/-!
# Verification of the EMQL front end (lexer, parser, AST, evaluator)

Shallow embedding of the EMQL query-language front end:

* the rune-based `Lexer` (readToken / NextToken, keyword folding, `group by`
  fusion, string literals, line comments),
* the LL(2) `Parser` (ParseSelect and the precedence-climbing expression and
  predicate grammar),
* the AST and its operator algebra (`GenericBinaryOperator.Apply`,
  `IntUnaryOperator.Apply`, the arithmetic / comparison / boolean operator
  tables over arbitrary-precision integers),
* the evaluator (`Execute` / `ExecuteBool`) over an environment of attribute
  bindings and builtin functions.

Go's `*big.Int` is modelled as `Int`.  Functions that return `(T, error)` are
modelled with an explicit result type; a Go runtime panic (nil dereference,
`big.Int` division by zero, `Value.ToBool` on a non-bool, ...) is a distinct
`crash` outcome, separate from a returned `error`.

The Go parser reads tokens through a two-slot lookahead buffer refilled from
the lexer.  When the lexer produces no lexical error, that buffer discipline
is observationally an index into the token sequence, so the parser is
embedded as a function over the remaining list of tokens.

Character classes: the Go code uses `unicode.IsLetter`, `unicode.IsDigit` and
`unicode.IsSpace`.  These are embedded faithfully for all code points below
U+0100 (ASCII and Latin-1), which covers every input considered here; code
points at or above U+0100 are treated as non-letter, non-digit, non-space.
-/

namespace EMQL

/-- Go `unicode.IsLetter`, faithful on code points below U+0100: ASCII
letters plus the Latin-1 letters ª µ º À–Ö Ø–ö ø–ÿ (excluding × and ÷). -/
def goIsLetter (c : Char) : Bool :=
  (('a' ≤ c && c ≤ 'z') || ('A' ≤ c && c ≤ 'Z')
    || c.val == 0xAA || c.val == 0xB5 || c.val == 0xBA
    || (0xC0 ≤ c.val && c.val ≤ 0xD6)
    || (0xD8 ≤ c.val && c.val ≤ 0xF6)
    || (0xF8 ≤ c.val && c.val ≤ 0xFF))

/-- Go `unicode.IsDigit`, faithful below U+0100 (the only Latin-1 decimal
digits are ASCII `0`-`9`). -/
def goIsDigit (c : Char) : Bool :=
  '0' ≤ c && c ≤ '9'

/-- Go `unicode.IsSpace`, faithful below U+0100: space, tab, newline,
vertical tab, form feed, carriage return, NEL (U+0085) and NBSP (U+00A0). -/
def goIsSpace (c : Char) : Bool :=
  c == ' ' || c == '\t' || c == '\n' || c.val == 0x0B || c.val == 0x0C
    || c == '\r' || c.val == 0x85 || c.val == 0xA0

/-- Go `strings.ToLower` on a single rune, faithful below U+0100 except for
µ (U+00B5, whose Go lower case U+03BC is left unchanged here): ASCII `A`-`Z`
and the Latin-1 capitals À–Þ (excluding ×) shift down by 0x20. -/
def goToLowerChar (c : Char) : Char :=
  if 'A' ≤ c && c ≤ 'Z' then Char.ofNat (c.toNat + 0x20)
  else if 0xC0 ≤ c.val && c.val ≤ 0xDE && c.val ≠ 0xD7 then Char.ofNat (c.toNat + 0x20)
  else c

/-- Go `strings.ToLower` of a string. -/
def goToLower (s : String) : String :=
  String.mk (s.data.map goToLowerChar)

/-! ## Values (`Value`, `IntValue`, `StringValue`, `BoolValue`) -/

/-- The tagged value union: `IntValue` (over `*big.Int`), `StringValue`,
`BoolValue`. -/
inductive Value where
  | intV (n : Int)
  | strV (s : String)
  | boolV (b : Bool)
  deriving DecidableEq, Repr

namespace Value

/-- `IsInt` — true exactly on `IntValue`. -/
def IsInt : Value → Bool
  | .intV _ => true
  | _ => false

/-- `IsBool` — true exactly on `BoolValue`. -/
def IsBool : Value → Bool
  | .boolV _ => true
  | _ => false

/-- `IsString` — true exactly on `StringValue`. -/
def IsString : Value → Bool
  | .strV _ => true
  | _ => false

/-- The `String()` method of each value: `IntValue` prints base 10,
`StringValue` prints its contents, `BoolValue` prints `true`/`false`. -/
def toDisplay : Value → String
  | .intV n => toString n
  | .strV s => s
  | .boolV b => if b then "true" else "false"

/-- `Value.Equals`: values of different variants are unequal; values of the
same variant compare componentwise (`IntValue` via `big.Int.Cmp`). -/
def Equals : Value → Value → Bool
  | .intV a, .intV b => a == b
  | .strV a, .strV b => a == b
  | .boolV a, .boolV b => a == b
  | _, _ => false

/-- Variant discriminator (0 = int, 1 = string, 2 = bool), used to state
cross-variant facts about `Equals`. -/
def variant : Value → Nat
  | .intV _ => 0
  | .strV _ => 1
  | .boolV _ => 2

end Value

/-- Result of a Go computation returning `(T, error)` that may additionally
abort the process: `ok` models a nil error, `err` a returned error string,
and `crash` a Go runtime panic (its message recorded). -/
inductive EvalResult (α : Type) where
  | ok (a : α)
  | err (msg : String)
  | crash (msg : String)
  deriving DecidableEq, Repr

/-! ## Operator algebra (operator tables and `Apply`) -/

/-- The arithmetic binary operator symbols (`arithBinaryOperators` table). -/
def arithBinaryNames : List String := ["+", "-", "*", "/", "%"]

/-- The comparison binary operator symbols (`comparisonBinaryOperators`). -/
def comparisonBinaryNames : List String := [">", ">=", "<", "<=", "=", "<>"]

/-- The boolean binary operator symbols (`boolBinaryOperators`). -/
def boolBinaryNames : List String := ["and", "or"]

/-- The entries of `arithBinaryOperators`: `+ - *` are total; `/` is
`big.Int.Div` and `%` is `big.Int.Mod`, both of which follow the Euclidean
convention and panic with "division by zero" when the divisor is zero. -/
def arithApply (name : String) (a b : Int) : EvalResult Int :=
  if name = "+" then .ok (a + b)
  else if name = "-" then .ok (a - b)
  else if name = "*" then .ok (a * b)
  else if name = "/" then
    if b = 0 then .crash "division by zero" else .ok (Int.ediv a b)
  else if name = "%" then
    if b = 0 then .crash "division by zero" else .ok (Int.emod a b)
  else .crash "operator not in table"

/-- The entries of `comparisonBinaryOperators`, via `big.Int.Cmp`. -/
def compApply (name : String) (a b : Int) : Bool :=
  if name = ">" then a > b
  else if name = ">=" then a ≥ b
  else if name = "<" then a < b
  else if name = "<=" then a ≤ b
  else if name = "=" then a = b
  else a ≠ b

/-- The entries of `boolBinaryOperators` (`and`, `or`). -/
def boolApply (name : String) (a b : Bool) : Bool :=
  if name = "and" then a && b else a || b

/-- `Value.ToInt`: returns the wrapped integer, panics on the other
variants ("cannot convert string to int" / "cannot convert bool to int"). -/
def valueToInt : Value → EvalResult Int
  | .intV n => .ok n
  | .strV _ => .crash "cannot convert string to int"
  | .boolV _ => .crash "cannot convert bool to int"

/-- `Value.ToBool`: returns the wrapped bool, panics on the other variants
("cannot convert int to bool" / "cannot convert string to bool"). -/
def valueToBool : Value → EvalResult Bool
  | .boolV b => .ok b
  | .intV _ => .crash "cannot convert int to bool"
  | .strV _ => .crash "cannot convert string to bool"

/-- `GenericBinaryOperator.Apply`: regardless of which table the operator
came from, both operands are first required to satisfy `IsInt` (else an
error `cannot cast <v> to int` is returned); only then is the wrapped
closure invoked.  The closure is `wrapIntBinary` for an arithmetic symbol,
`wrapCompBinary` for a comparison and `wrapBoolBinary` for `and`/`or` —
the last of which calls `ToBool` on operands that just passed the `IsInt`
check, hence panics. -/
def genericBinaryApply (name : String) (left right : Value) : EvalResult Value :=
  if !left.IsInt then .err ("cannot cast " ++ left.toDisplay ++ " to int")
  else if !right.IsInt then .err ("cannot cast " ++ right.toDisplay ++ " to int")
  else if name ∈ arithBinaryNames then
    match valueToInt left, valueToInt right with
    | .ok a, .ok b =>
      match arithApply name a b with
      | .ok n => .ok (.intV n)
      | .err m => .err m
      | .crash m => .crash m
    | _, _ => .crash "unreachable"
  else if name ∈ comparisonBinaryNames then
    match valueToInt left, valueToInt right with
    | .ok a, .ok b => .ok (.boolV (compApply name a b))
    | _, _ => .crash "unreachable"
  else if name ∈ boolBinaryNames then
    -- wrapBoolBinary calls left.ToBool(); left is an IntValue here.
    match valueToBool left with
    | .crash m => .crash m
    | .err m => .err m
    | .ok a =>
      match valueToBool right with
      | .crash m => .crash m
      | .err m => .err m
      | .ok b => .ok (.boolV (boolApply name a b))
  else .crash "operator not in table"

/-- The `intUnaryOperators` table (`+` identity, `-` negation). -/
def intUnaryApply (name : String) (a : Int) : Int :=
  if name = "-" then -a else a

/-- `IntUnaryOperator.Apply`: the operand is required to satisfy `IsInt`
(else error `could not cast <v> to int`); `NewBoolUnaryOperator` also
packages `not` inside an `IntUnaryOperator`, whose wrapped `wrapBoolUnary`
closure then calls `ToBool` on an operand that just passed the `IsInt`
check, hence panics. -/
def unaryOperatorApply (name : String) (operand : Value) : EvalResult Value :=
  if !operand.IsInt then .err ("could not cast " ++ operand.toDisplay ++ " to int")
  else if name = "+" || name = "-" then
    match valueToInt operand with
    | .ok a => .ok (.intV (intUnaryApply name a))
    | _ => .crash "unreachable"
  else
    -- "not": wrapBoolUnary calls operand.ToBool() on an IntValue.
    match valueToBool operand with
    | .crash m => .crash m
    | .err m => .err m
    | .ok b => .ok (.boolV !b)

/-! ## AST

The parser constructs two sorts of nodes.  Expressions: literal values
(`IntValue`, `StringValue`, `BoolValue` double as literal expressions),
`Attribute`, `FunctionCall`, `BinaryApplication` (arithmetic) and
`UnaryApplication` (arithmetic unary).  Predicates: `BoolValue`,
`PredBinaryApplication` wrapping either a comparison (expression operands)
or an `and`/`or` (predicate operands), `PredUnaryApplication` (`not`),
`InOperator` and `IsOperator`.  Operator objects carry only their symbol as
identity, so they are embedded as their symbol string. -/

inductive Expr where
  | intLit (n : Int)
  | strLit (s : String)
  | boolLit (b : Bool)
  | attr (parts : List String)
  | funcCall (name : String) (args : List Expr)
  | binApp (op : String) (left right : Expr)
  | unApp (op : String) (operand : Expr)

inductive Pred where
  | pboolLit (b : Bool)
  | comp (op : String) (left right : Expr)
  | boolBin (op : String) (left right : Pred)
  | notP (operand : Pred)
  | inOp (needle : Expr) (haystack : List Expr)
  | isOp (operand : Expr) (target : String)

/-- `NewFunctionCall` lower-cases the function name at construction. -/
def newFunctionCall (name : String) (args : List Expr) : Expr :=
  .funcCall (goToLower name) args

/-- `NegatePredicate` wraps a predicate in a `not` unary application. -/
def negatePredicate (p : Pred) : Pred :=
  .notP p

/-! ## Environment -/

/-- The evaluation environment.  `functions` is the `Env.Functions` table
(name → builtin); a missing name makes `ExecuteFunction` return the error
`unkonwn function <name>` (typo as in the source).

`lookupAttr` — Modelled from the spec: `Attribute.Execute` is an
unimplemented TODO stub in the source, and the spec elevates attribute
resolution to the collaborator contract `Env.Lookup(parts) → (Value, error)`
that resolves the full dotted path, an unresolved path being a runtime
error. -/
structure Env where
  lookupAttr : List String → EvalResult Value
  functions : String → Option (List Value → EvalResult Value)

/-- `Env.ExecuteFunction`: unknown names error, otherwise the builtin runs
and its result is propagated. -/
def Env.ExecuteFunction (env : Env) (name : String) (args : List Value) :
    EvalResult Value :=
  match env.functions name with
  | none => .err ("unkonwn function " ++ name)
  | some f => f args

/-! ## Evaluator -/

mutual

/-- `Expression.Execute`: literals return themselves; attributes resolve via
the environment (see `Env.lookupAttr`); function calls evaluate arguments
left to right, stopping at the first failure, then dispatch to
`Env.ExecuteFunction`; binary and unary applications evaluate children left
to right and then apply the operator. -/
def evalExpr (env : Env) : Expr → EvalResult Value
  | .intLit n => .ok (.intV n)
  | .strLit s => .ok (.strV s)
  | .boolLit b => .ok (.boolV b)
  | .attr parts => env.lookupAttr parts
  | .funcCall name args =>
    match evalExprList env args with
    | .ok vs => env.ExecuteFunction name vs
    | .err m => .err m
    | .crash m => .crash m
  | .binApp op l r =>
    match evalExpr env l with
    | .ok lv =>
      match evalExpr env r with
      | .ok rv => genericBinaryApply op lv rv
      | .err m => .err m
      | .crash m => .crash m
    | .err m => .err m
    | .crash m => .crash m
  | .unApp op e =>
    match evalExpr env e with
    | .ok v => unaryOperatorApply op v
    | .err m => .err m
    | .crash m => .crash m

/-- Left-to-right evaluation of an expression list, stopping at the first
failing element (used by `FunctionCall.Execute` and
`InOperator.ExecuteBool`). -/
def evalExprList (env : Env) : List Expr → EvalResult (List Value)
  | [] => .ok []
  | e :: es =>
    match evalExpr env e with
    | .ok v =>
      match evalExprList env es with
      | .ok vs => .ok (v :: vs)
      | .err m => .err m
      | .crash m => .crash m
    | .err m => .err m
    | .crash m => .crash m

end

/-- `InOperator.ExecuteBool`: evaluate the needle, then every haystack
element in order (an element failure is reported even if an earlier element
already matched), then return whether some element `Equals` the needle. -/
def evalInBool (env : Env) (needle : Expr) (haystack : List Expr) :
    EvalResult Bool :=
  match evalExpr env needle with
  | .err m => .err m
  | .crash m => .crash m
  | .ok lhs =>
    match evalExprList env haystack with
    | .err m => .err m
    | .crash m => .crash m
    | .ok vs => .ok (vs.any (fun v => lhs.Equals v))

/-- `IsOperator.ExecuteBool`: the operand is evaluated (failures propagate)
and then the source's TODO stub returns `false` unconditionally. -/
def evalIsBool (env : Env) (operand : Expr) : EvalResult Bool :=
  match evalExpr env operand with
  | .err m => .err m
  | .crash m => .crash m
  | .ok _ => .ok false

/-- `Predicate` nodes viewed as expressions (`Execute`): the wrapped
`BinaryApplication`/`UnaryApplication` is executed for applications, and
`InOperator.Execute`/`IsOperator.Execute` wrap their `ExecuteBool`. -/
def evalPredV (env : Env) : Pred → EvalResult Value
  | .pboolLit b => .ok (.boolV b)
  | .comp op l r =>
    match evalExpr env l with
    | .ok lv =>
      match evalExpr env r with
      | .ok rv => genericBinaryApply op lv rv
      | .err m => .err m
      | .crash m => .crash m
    | .err m => .err m
    | .crash m => .crash m
  | .boolBin op l r =>
    match evalPredV env l with
    | .ok lv =>
      match evalPredV env r with
      | .ok rv => genericBinaryApply op lv rv
      | .err m => .err m
      | .crash m => .crash m
    | .err m => .err m
    | .crash m => .crash m
  | .notP p =>
    match evalPredV env p with
    | .ok v => unaryOperatorApply "not" v
    | .err m => .err m
    | .crash m => .crash m
  | .inOp needle haystack =>
    match evalInBool env needle haystack with
    | .ok b => .ok (.boolV b)
    | .err m => .err m
    | .crash m => .crash m
  | .isOp operand _ =>
    match evalIsBool env operand with
    | .ok b => .ok (.boolV b)
    | .err m => .err m
    | .crash m => .crash m

/-- `Predicate.ExecuteBool`: `BoolValue` returns its value; `In`/`Is`
delegate to their `ExecuteBool`; the application wrappers execute the
underlying application and then require a `BoolValue` result, else the
error `expected bool but returned <v>`. -/
def evalPredBool (env : Env) : Pred → EvalResult Bool
  | .pboolLit b => .ok b
  | .inOp needle haystack => evalInBool env needle haystack
  | .isOp operand _ => evalIsBool env operand
  | .comp op l r =>
    match evalPredV env (.comp op l r) with
    | .ok v =>
      if v.IsBool then
        match v with
        | .boolV b => .ok b
        | _ => .crash "unreachable"
      else .err ("expected bool but returned " ++ v.toDisplay)
    | .err m => .err m
    | .crash m => .crash m
  | .boolBin op l r =>
    match evalPredV env (.boolBin op l r) with
    | .ok v =>
      if v.IsBool then
        match v with
        | .boolV b => .ok b
        | _ => .crash "unreachable"
      else .err ("expected bool but returned " ++ v.toDisplay)
    | .err m => .err m
    | .crash m => .crash m
  | .notP p =>
    match evalPredV env (.notP p) with
    | .ok v =>
      if v.IsBool then
        match v with
        | .boolV b => .ok b
        | _ => .crash "unreachable"
      else .err ("expected bool but returned " ++ v.toDisplay)
    | .err m => .err m
    | .crash m => .crash m

/-! ## Lexer (rune-based variant)

The Go lexer holds a `bufio.Reader` plus the current rune; the pair is
embedded as the list of remaining runes whose head is the current rune
(`advance` drops the head; a `nil` current rune is the empty list).  `peek`
dereferences the current-rune pointer, so peeking with no current rune is a
Go nil-pointer panic, modelled as the `crash` outcome. -/

structure LexerSt where
  input : List Char
  hasNext : Bool
  currentToken : String
  deriving DecidableEq, Repr

/-- The reserved keyword set (`caseInsensitiveTokens`).  Note that `group`
and `by` are not individually members; only the fused `group by` is. -/
def caseInsensitiveTokens : List String :=
  ["select", "from", "as", "where", "since", "until", "group by", "null",
   "contract", "and", "or", "not", "blocks", "transactions", "is", "in"]

/-- Identifier/number continuation characters of the `readToken` word loop:
letter, digit or underscore. -/
def identCont (c : Char) : Bool :=
  goIsLetter c || goIsDigit c || c = '_'

/-- Outcome of `readToken`: a new state, a lexical error (with the mutated
state, since Go mutates before returning the error), or a panic. -/
inductive ReadOut where
  | ok (st : LexerSt)
  | err (st : LexerSt) (msg : String)
  | crash
  | fuelOut
  deriving DecidableEq, Repr

/-- The interior loop of `Lexer.readString`: `c` is the current rune,
`rest` the runes after it.  A backslash escapes the following rune; end of
input inside the string is the `reached EOS inside string` error, returned
as `none`. -/
def readStringLoop : Char → List Char → Bool → String → Option (String × List Char)
  | c, rest, escaped, buf =>
    if escaped || c ≠ '"' then
      match rest with
      | [] => none
      | c' :: rest' => readStringLoop c' rest' (c == '\\') (buf.push c)
    else
      some (buf.push '"', rest)

/-- `Lexer.readSymbol`: one-character symbol token with two-character fusion
for `<>`, `>=`, `<=`.  When `c` is `<` or `>` the next rune is peeked, which
panics at end of input. -/
def readSymbolGo (c : Char) (input : List Char) : ReadOut :=
  if c = '<' || c = '>' then
    match input with
    | [] => .crash
    | r :: rest =>
      if c = '<' && r = '>' then .ok ⟨rest, true, "<>"⟩
      else if r = '=' then .ok ⟨rest, true, String.mk [c, '=']⟩
      else .ok ⟨input, true, String.mk [c]⟩
  else .ok ⟨input, true, String.mk [c]⟩

/-- `Lexer.skipLine`: consume up to and including the next newline. -/
def skipLine (input : List Char) : List Char :=
  (input.dropWhile (fun c => c ≠ '\n')).tail

/-- `Lexer.readToken`.  Skip whitespace; at end of input clear `hasNext`
(leaving `currentToken` untouched).  A `"` starts a string literal (peeking
past a `"` that ends the input panics).  A non-letter, non-digit first rune
is a symbol, with `--` starting a line comment that restarts `readToken`
(checking for the second `-` peeks, hence panics at end of input).
Otherwise the word loop reads `[letter digit _]+`; if its lower-cased form
is a reserved keyword the lower-cased form is emitted, else the verbatim
word. -/
def readTokenGo (fuel : Nat) (input : List Char) (curTok : String) : ReadOut :=
  match fuel with
  | 0 => .fuelOut
  | fuel + 1 =>
    match input.dropWhile goIsSpace with
    | [] => .ok ⟨[], false, curTok⟩
    | c :: rest =>
      if c = '"' then
        match rest with
        | [] => .crash
        | c' :: rest' =>
          match readStringLoop c' rest' false "\"" with
          | none => .err ⟨[], true, curTok⟩ "reached EOS inside string"
          | some (tok, rem) => .ok ⟨rem, true, tok⟩
      else if !(goIsLetter c || goIsDigit c) then
        if c = '-' then
          match rest with
          | [] => .crash
          | c2 :: _ =>
            if c2 = '-' then readTokenGo fuel (skipLine rest) curTok
            else readSymbolGo c rest
        else readSymbolGo c rest
      else
        let word := String.mk ((c :: rest).takeWhile identCont)
        let rem := (c :: rest).dropWhile identCont
        let lowered := goToLower word
        if lowered ∈ caseInsensitiveTokens then .ok ⟨rem, true, lowered⟩
        else .ok ⟨rem, true, word⟩

/-- Result of `Lexer.NextToken`: the `(token, has_next, error)` triple plus
the mutated lexer state, or a panic. -/
inductive NextOut where
  | res (tok : String) (has : Bool) (e : Option String) (st : LexerSt)
  | crash
  | fuelOut
  deriving DecidableEq, Repr

/-- `Lexer.NextToken`: after the stream ends every call returns
`("", false, nil)`; otherwise the buffered token is returned and the next
one read, with the special case fusing `group` followed immediately by the
token `by` into `group by` (reading one further token). -/
def NextToken (fuel : Nat) (st : LexerSt) : NextOut :=
  if !st.hasNext then .res "" false none st
  else
    let token := st.currentToken
    match readTokenGo fuel st.input st.currentToken with
    | .crash => .crash
    | .fuelOut => .fuelOut
    | .err st' m => .res "" false (some m) st'
    | .ok st' =>
      if token = "group" && st'.currentToken = "by" then
        match readTokenGo fuel st'.input st'.currentToken with
        | .crash => .crash
        | .fuelOut => .fuelOut
        | .err st'' m => .res "group by" true (some m) st''
        | .ok st'' => .res "group by" true none st''
      else .res token true none st'

/-- `NewLexer`: prime the current rune and read the first token.  The error
of that initial `readToken` is DISCARDED by the constructor; `none` models
the constructor itself panicking. -/
def NewLexer (fuel : Nat) (query : String) : ReadOut :=
  match readTokenGo fuel query.data "" with
  | .ok st => .ok st
  | .err st _ => .ok st
  | .crash => .crash
  | .fuelOut => .fuelOut

/-- Outcome of draining the lexer: the full token sequence, or the tokens
seen before a lexical error / panic / fuel exhaustion. -/
inductive TokensOut where
  | done (toks : List String)
  | failed (toks : List String) (msg : String)
  | crashed (toks : List String)
  | fuelOut (toks : List String)
  deriving DecidableEq, Repr

/-- Call `NextToken` until `has_next` is false, collecting tokens. -/
def drain (fuel : Nat) (st : LexerSt) (acc : List String) : TokensOut :=
  match fuel with
  | 0 => .fuelOut acc.reverse
  | fuel + 1 =>
    match NextToken fuel st with
    | .crash => .crashed acc.reverse
    | .fuelOut => .fuelOut acc.reverse
    | .res _ false none _ => .done acc.reverse
    | .res _ false (some m) _ => .failed acc.reverse m
    | .res tok true none st' => drain fuel st' (tok :: acc)
    | .res tok true (some m) _ => .failed (acc.reverse ++ [tok]) m

/-- Tokenize a whole query string. -/
def tokenize (fuel : Nat) (query : String) : TokensOut :=
  match NewLexer fuel query with
  | .crash => .crashed []
  | .fuelOut => .fuelOut []
  | .err st _ => drain fuel st []
  | .ok st => drain fuel st []

/-! ## Identifier and literal predicates (parser.go helpers) -/

/-- The loop body of `IsValidIdentifier`: reject when the rune is not a
letter, not an underscore, and either first or not a digit. -/
def validIdentGo : List Char → Bool → Bool
  | [], _ => true
  | r :: rs, isFirst =>
    if !goIsLetter r && r ≠ '_' && (isFirst || !goIsDigit r) then false
    else validIdentGo rs false

/-- `IsValidIdentifier`: nonempty, first rune a letter or underscore, later
runes letters, digits or underscores (letter/digit via the `unicode`
classes). -/
def IsValidIdentifier (value : String) : Bool :=
  if value.data.isEmpty then false
  else validIdentGo value.data true

/-- `StartsWithDigit`: the first rune is a digit (empty string: false). -/
def StartsWithDigit (value : String) : Bool :=
  match value.data with
  | [] => false
  | c :: _ => goIsDigit c

/-- Digit value of a rune in the given base (10 or 16; `big.Int.SetString`
and `strconv.ParseInt` both accept upper- and lower-case hex letters). -/
def digitVal (base : Nat) (c : Char) : Option Nat :=
  if '0' ≤ c && c ≤ '9' then
    let d := c.toNat - '0'.toNat
    if d < base then some d else none
  else if 'a' ≤ c && c ≤ 'f' then
    let d := c.toNat - 'a'.toNat + 10
    if d < base then some d else none
  else if 'A' ≤ c && c ≤ 'F' then
    let d := c.toNat - 'A'.toNat + 10
    if d < base then some d else none
  else none

/-- Accumulate digits; `none` when empty or when any rune is invalid. -/
def parseDigits (base : Nat) : List Char → Option Nat
  | [] => none
  | cs => go cs 0
where
  go : List Char → Nat → Option Nat
    | [], acc => some acc
    | c :: rest, acc =>
      match digitVal base c with
      | none => none
      | some d => go rest (acc * base + d)

/-- `big.Int.SetString` in a fixed base: optional sign, then at least one
digit, no other runes (underscores are rejected for nonzero bases). -/
def bigIntSetString (s : String) (base : Nat) : Option Int :=
  match s.data with
  | '-' :: rest => (parseDigits base rest).map (fun n => -(n : Int))
  | '+' :: rest => (parseDigits base rest).map (fun n => (n : Int))
  | cs => (parseDigits base cs).map (fun n => (n : Int))

/-- `strconv.ParseInt(s, base, 64)`: same syntax as `bigIntSetString` plus
the signed 64-bit range check (error strings abbreviated). -/
def goParseInt64 (s : String) (base : Nat) : Except String Int :=
  match bigIntSetString s base with
  | none => .error ("invalid syntax: " ++ s)
  | some v =>
    if v < -(2 ^ 63) || v > 2 ^ 63 - 1 then .error ("value out of range: " ++ s)
    else .ok v

/-- `strconv.Unquote` applied to a lexer string token, modelled for the
double-quoted form with the single-character escapes
(`\a \b \f \n \r \t \v \\ \' \"`); the numeric escapes (`\x`, `\u`, `\U`,
octal), legal in Go, are mapped to an error here — no input considered in
this development uses them. -/
def goUnquote (s : String) : Except String String :=
  match s.data with
  | '"' :: rest => go rest ""
  | _ => .error "invalid syntax"
where
  go : List Char → String → Except String String
    | ['"'], acc => .ok acc
    | '"' :: _ :: _, _ => .error "invalid syntax"
    | '\\' :: c :: rest, acc =>
      if c = 'a' then go rest (acc.push (Char.ofNat 7))
      else if c = 'b' then go rest (acc.push (Char.ofNat 8))
      else if c = 'f' then go rest (acc.push (Char.ofNat 12))
      else if c = 'n' then go rest (acc.push '\n')
      else if c = 'r' then go rest (acc.push '\r')
      else if c = 't' then go rest (acc.push '\t')
      else if c = 'v' then go rest (acc.push (Char.ofNat 11))
      else if c = '\\' then go rest (acc.push '\\')
      else if c = '\'' then go rest (acc.push '\'')
      else if c = '"' then go rest (acc.push '"')
      else .error "escape not modelled"
    | '\n' :: _, _ => .error "invalid syntax"
    | c :: rest, acc => go rest (acc.push c)
    | [], _ => .error "invalid syntax"

/-! ## Statement clauses

`FromClause` is from the AST source.  `BlockRef`, `GroupByClause` and the
`SelectStatement` shape built by `ParseSelect` are referenced by the parser
but their declarations are not among the provided sources. -/

structure FromClause where
  address : Int
  deriving DecidableEq, Repr

/-- Modelled from the spec: a `BlockRef` is a reference to a block by
integer block number, used by `since`/`until` (64-bit integers as parsed by
`eatIntLiteral`). -/
structure BlockRef where
  blockNumber : Int
  deriving DecidableEq, Repr

/-- `NewBlockRef`, the constructor used by `parseBlockRef`. -/
def NewBlockRef (n : Int) : BlockRef := ⟨n⟩

/-- Modelled from the spec: a `group by` clause holds an optional
blocks-count, an optional transactions-count (each set at most once) and an
ordered list of grouping attributes (their dotted parts). -/
structure GroupByClause where
  blocksCount : Option Int
  transactionsCount : Option Int
  attributes : List (List String)

/-- `NewGroupByClause`: the empty clause. -/
def NewGroupByClause : GroupByClause := ⟨none, none, []⟩

/-- Modelled from the spec (the record shape; every field is filled in by
`ParseSelect` exactly as in the source): the parsed top-level statement.
The Go `Aliases` map is embedded as an insertion-ordered association list
with overwrite-on-repeat. -/
structure SelectStatement where
  selected : List Expr
  from_ : FromClause
  where_ : Option Pred
  since : Option BlockRef
  untilC : Option BlockRef
  limit : Option Int
  offset : Option Int
  groupBy : Option GroupByClause
  aliases : List (String × Expr)

/-- Go map assignment `aliases[alias] = expression` on the association-list
embedding. -/
def aliasInsert (al : List (String × Expr)) (k : String) (v : Expr) :
    List (String × Expr) :=
  if al.any (fun p => p.1 = k) then
    al.map (fun p => if p.1 = k then (k, v) else p)
  else al ++ [(k, v)]

/-! ## Parser

The LL(2) parser over the token stream.  State is the list of tokens not
yet consumed: `peek` is the head (or `""`), `peekN 1` the second token (or
`""`), `advance` drops the head — the observable behaviour of the two-slot
lookahead buffer when the lexer raises no lexical error.  Each parse
routine returns the parsed node together with the remaining tokens, or the
parse error.  Recursion is by explicit fuel, decremented at every call;
every result below is reached with fuel to spare. -/

def peekT (ts : List String) : String := ts.headD ""

def peekN1 (ts : List String) : String := (ts.drop 1).headD ""

/-- `strings.HasPrefix` (byte prefix; equivalently rune prefix for valid
UTF-8), on the rune list. -/
def strHasBefore (p s : String) : Bool :=
  p.data.isPrefixOf s.data

/-- Go string slicing `s[n:]` for an ASCII prefix of length `n`. -/
def strDropRunes (s : String) (n : Nat) : String :=
  String.mk (s.data.drop n)

/-- `Parser.eat`: fail unless the next token is `token`, else consume it. -/
def eatT (token : String) (ts : List String) : Except String (List String) :=
  if peekT ts = token then .ok ts.tail
  else .error ("expected " ++ token ++ " but got " ++ peekT ts)

/-- `Parser.eatIdentifier`. -/
def eatIdentifierT (ts : List String) : Except String (String × List String) :=
  if IsValidIdentifier (peekT ts) then .ok (peekT ts, ts.tail)
  else .error (peekT ts ++ " is not a valid identifier")

/-- `Parser.eatIntLiteral`: `0x`-prefixed tokens parse base 16 (prefix
stripped), others base 10, through `strconv.ParseInt(…, 64)`. -/
def eatIntLiteralT (ts : List String) : Except String (Int × List String) :=
  let token := peekT ts
  if strHasBefore "0x" token then
    match goParseInt64 (strDropRunes token 2) 16 with
    | .error e => .error e
    | .ok v => .ok (v, ts.tail)
  else
    match goParseInt64 token 10 with
    | .error e => .error e
    | .ok v => .ok (v, ts.tail)

/-- `Parser.parseHex`: requires the `0x` prefix, then `big.Int.SetString`
base 16 on the rest. -/
def parseHexT (ts : List String) : Except String (Int × List String) :=
  let token := peekT ts
  if !(strHasBefore "0x" token) then .error "expected hex number"
  else
    match bigIntSetString (strDropRunes token 2) 16 with
    | none => .error ("failed to parse int literal " ++ token)
    | some v => .ok (v, ts.tail)

/-- `NewIntBinaryApplication` (via `NewIntBinOperator`): accepts an
arithmetic symbol, or failing that a comparison symbol. -/
def NewIntBinaryApplication (l r : Expr) (op : String) : Except String Expr :=
  if op ∈ arithBinaryNames || op ∈ comparisonBinaryNames then .ok (.binApp op l r)
  else .error ("expected a binary operator on ints, got: " ++ op)

/-- `NewCompBinaryApplication` (via `NewCompOperator`). -/
def NewCompBinaryApplication (l r : Expr) (op : String) : Except String Pred :=
  if op ∈ comparisonBinaryNames then .ok (.comp op l r)
  else .error ("expected a comparison operator, got: " ++ op)

/-- `NewBoolBinaryApplication` (via `NewBoolBinOperator`). -/
def NewBoolBinaryApplication (l r : Pred) (op : String) : Except String Pred :=
  if op ∈ boolBinaryNames then .ok (.boolBin op l r)
  else .error ("expected a boolean operator, got: " ++ op)

/-- `NewIntUnaryApplication` (via `NewIntUnaryOperator`). -/
def NewIntUnaryApplication (e : Expr) (op : String) : Except String Expr :=
  if op = "+" || op = "-" then .ok (.unApp op e)
  else .error ("operator " ++ op ++ " not found")

/-- `NewPredUnaryApplication` (via `NewBoolUnaryOperator`). -/
def NewPredUnaryApplication (p : Pred) (op : String) : Except String Pred :=
  if op = "not" then .ok (.notP p)
  else .error ("operator " ++ op ++ " not found")

mutual

/-- `Parser.parseExpression`: a term followed by `(+|-) term` repetitions. -/
def parseExpression (fuel : Nat) (ts : List String) :
    Except String (Expr × List String) :=
  match fuel with
  | 0 => .error "out of fuel"
  | fuel + 1 => do
    let (term, ts) ← parseTerm fuel ts
    parseRecExpression fuel term ts

  termination_by structural fuel
/-- `Parser.parseRecExpression` (left-associative folding of `+`/`-`). -/
def parseRecExpression (fuel : Nat) (left : Expr) (ts : List String) :
    Except String (Expr × List String) :=
  match fuel with
  | 0 => .error "out of fuel"
  | fuel + 1 =>
    let token := peekT ts
    if token = "+" || token = "-" then do
      let (right, ts') ← parseTerm fuel ts.tail
      let app ← NewIntBinaryApplication left right token
      parseRecExpression fuel app ts'
    else .ok (left, ts)

  termination_by structural fuel
/-- `Parser.parseTerm`: a unary followed by `(*|/|%) unary` repetitions. -/
def parseTerm (fuel : Nat) (ts : List String) :
    Except String (Expr × List String) :=
  match fuel with
  | 0 => .error "out of fuel"
  | fuel + 1 => do
    let (unary, ts) ← parseUnary fuel ts
    parseRecTerm fuel unary ts

  termination_by structural fuel
/-- `Parser.parseRecTerm` (left-associative folding of `*`/`/`/`%`). -/
def parseRecTerm (fuel : Nat) (left : Expr) (ts : List String) :
    Except String (Expr × List String) :=
  match fuel with
  | 0 => .error "out of fuel"
  | fuel + 1 =>
    let token := peekT ts
    if token = "*" || token = "/" || token = "%" then do
      let (right, ts') ← parseUnary fuel ts.tail
      let app ← NewIntBinaryApplication left right token
      parseRecTerm fuel app ts'
    else .ok (left, ts)

  termination_by structural fuel
/-- `Parser.parseUnary`: unary `+`/`-` chains over a factor. -/
def parseUnary (fuel : Nat) (ts : List String) :
    Except String (Expr × List String) :=
  match fuel with
  | 0 => .error "out of fuel"
  | fuel + 1 =>
    let token := peekT ts
    if token = "+" || token = "-" then do
      let (unary, ts') ← parseUnary fuel ts.tail
      let app ← NewIntUnaryApplication unary token
      .ok (app, ts')
    else parseFactor fuel ts

  termination_by structural fuel
/-- `Parser.parseFactor`: string literal (via `strconv.Unquote`), hex
literal, decimal literal, parenthesised expression, function call
(identifier with `(` as second lookahead token), or attribute. -/
def parseFactor (fuel : Nat) (ts : List String) :
    Except String (Expr × List String) :=
  match fuel with
  | 0 => .error "out of fuel"
  | fuel + 1 =>
    let token := peekT ts
    if strHasBefore "\"" token then
      match goUnquote token with
      | .error e => .error e
      | .ok str => .ok (.strLit str, ts.tail)
    else if strHasBefore "0x" token then do
      let (value, ts') ← parseHexT ts
      .ok (.intLit value, ts')
    else if StartsWithDigit token then
      match bigIntSetString token 10 with
      | none => .error ("failed to parse int literal " ++ token)
      | some value => .ok (.intLit value, ts.tail)
    else if token = "(" then do
      let (exp, ts') ← parseExpression fuel ts.tail
      let ts'' ← eatT ")" ts'
      .ok (exp, ts'')
    else if IsValidIdentifier token then
      if peekN1 ts = "(" then parseFuncCall fuel ts
      else do
        let (attr, ts') ← parseAttribute fuel ts
        .ok (.attr attr, ts')
    else .error ("expected factor, got " ++ token)

  termination_by structural fuel
/-- `Parser.parseFuncCall`: identifier then argument list; the name is
lower-cased by `NewFunctionCall`. -/
def parseFuncCall (fuel : Nat) (ts : List String) :
    Except String (Expr × List String) :=
  match fuel with
  | 0 => .error "out of fuel"
  | fuel + 1 => do
    let (funcName, ts) ← eatIdentifierT ts
    let (args, ts') ← parseExpList fuel ts
    .ok (newFunctionCall funcName args, ts')

  termination_by structural fuel
/-- `Parser.parseExpList`: `(` expression (`,` expression)* then `eat ")"`;
with no opening `(` the loop body never runs and `eat ")"` decides. -/
def parseExpList (fuel : Nat) (ts : List String) :
    Except String (List Expr × List String) :=
  match fuel with
  | 0 => .error "out of fuel"
  | fuel + 1 =>
    if peekT ts = "(" then do
      let (exp, ts') ← parseExpression fuel ts.tail
      parseExpListLoop fuel [exp] ts'
    else do
      let ts' ← eatT ")" ts
      .ok ([], ts')

  termination_by structural fuel
/-- The `i > 0` iterations of the `parseExpList` loop plus the final
`eat ")"`. -/
def parseExpListLoop (fuel : Nat) (acc : List Expr) (ts : List String) :
    Except String (List Expr × List String) :=
  match fuel with
  | 0 => .error "out of fuel"
  | fuel + 1 =>
    if peekT ts = "," then do
      let (exp, ts') ← parseExpression fuel ts.tail
      parseExpListLoop fuel (acc ++ [exp]) ts'
    else do
      let ts' ← eatT ")" ts
      .ok (acc, ts')

  termination_by structural fuel
/-- `Parser.parseAttribute`: identifier then `parseAttributeParts`. -/
def parseAttribute (fuel : Nat) (ts : List String) :
    Except String (List String × List String) :=
  match fuel with
  | 0 => .error "out of fuel"
  | fuel + 1 => do
    let (id, ts) ← eatIdentifierT ts
    parseAttributeParts fuel [id] ts

  termination_by structural fuel
/-- `Parser.parseAttributeParts`: `. identifier` repetitions. -/
def parseAttributeParts (fuel : Nat) (parts : List String) (ts : List String) :
    Except String (List String × List String) :=
  match fuel with
  | 0 => .error "out of fuel"
  | fuel + 1 =>
    if peekT ts = "." then do
      let (part, ts') ← eatIdentifierT ts.tail
      parseAttributeParts fuel (parts ++ [part]) ts'
    else .ok (parts, ts)

  termination_by structural fuel
end

mutual

/-- `Parser.parseOrCondition`. -/
def parseOrCondition (fuel : Nat) (ts : List String) :
    Except String (Pred × List String) :=
  match fuel with
  | 0 => .error "out of fuel"
  | fuel + 1 => do
    let (predicate, ts) ← parseAndCondition fuel ts
    parseOrConditionRec fuel predicate ts

  termination_by structural fuel
/-- `Parser.parseOrConditionRec` (left-associative `or`). -/
def parseOrConditionRec (fuel : Nat) (left : Pred) (ts : List String) :
    Except String (Pred × List String) :=
  match fuel with
  | 0 => .error "out of fuel"
  | fuel + 1 =>
    let token := peekT ts
    if token = "or" then do
      let (right, ts') ← parseAndCondition fuel ts.tail
      let app ← NewBoolBinaryApplication left right token
      parseOrConditionRec fuel app ts'
    else .ok (left, ts)

  termination_by structural fuel
/-- `Parser.parseAndCondition`. -/
def parseAndCondition (fuel : Nat) (ts : List String) :
    Except String (Pred × List String) :=
  match fuel with
  | 0 => .error "out of fuel"
  | fuel + 1 => do
    let (predicate, ts) ← parseNegatablePredicate fuel ts
    parseAndConditionRec fuel predicate ts

  termination_by structural fuel
/-- `Parser.parseAndConditionRec` (left-associative `and`). -/
def parseAndConditionRec (fuel : Nat) (left : Pred) (ts : List String) :
    Except String (Pred × List String) :=
  match fuel with
  | 0 => .error "out of fuel"
  | fuel + 1 =>
    let token := peekT ts
    if token = "and" then do
      let (right, ts') ← parseNegatablePredicate fuel ts.tail
      let app ← NewBoolBinaryApplication left right token
      parseAndConditionRec fuel app ts'
    else .ok (left, ts)

  termination_by structural fuel
/-- `Parser.parseNegatablePredicate`: `not` chains over a simple
predicate. -/
def parseNegatablePredicate (fuel : Nat) (ts : List String) :
    Except String (Pred × List String) :=
  match fuel with
  | 0 => .error "out of fuel"
  | fuel + 1 =>
    let token := peekT ts
    if token = "not" then do
      let (unary, ts') ← parseNegatablePredicate fuel ts.tail
      NewPredUnaryApplication unary token |>.map (fun p => (p, ts'))
    else parseSimplePredicate fuel ts

  termination_by structural fuel
/-- `Parser.parseSimplePredicate`: a parenthesised or-condition (whose
closing `eat ")"` error is DISCARDED in the source), or an expression
followed by `in` / `not in` / `is [not]` / a comparison operator. -/
def parseSimplePredicate (fuel : Nat) (ts : List String) :
    Except String (Pred × List String) :=
  match fuel with
  | 0 => .error "out of fuel"
  | fuel + 1 =>
    if peekT ts = "(" then do
      let (predicate, ts') ← parseOrCondition fuel ts.tail
      -- p.eat(")") with its error ignored: consume only on match.
      let ts'' := if peekT ts' = ")" then ts'.tail else ts'
      .ok (predicate, ts'')
    else do
      let (exp, ts) ← parseExpression fuel ts
      let token := peekT ts
      if token = "not" || token = "in" then
        if token = "not" then do
          let (predicate, ts') ← parseIn fuel exp ts.tail
          .ok (negatePredicate predicate, ts')
        else do
          let (predicate, ts') ← parseIn fuel exp ts
          .ok (predicate, ts')
      else if token = "is" then do
        let ts := ts.tail
        if peekT ts = "not" then do
          let (target, ts') ← eatIdentifierT ts.tail
          .ok (negatePredicate (.isOp exp target), ts')
        else do
          let (target, ts') ← eatIdentifierT ts
          .ok (.isOp exp target, ts')
      else if token ∈ comparisonBinaryNames then do
        let (right, ts') ← parseExpression fuel ts.tail
        let app ← NewCompBinaryApplication exp right token
        .ok (app, ts')
      else .error ("expected predicate, token was " ++ token)

  termination_by structural fuel
/-- `Parser.parseIn`: `in` then an expression list, which must be
nonempty (else the `empty list` error). -/
def parseIn (fuel : Nat) (needle : Expr) (ts : List String) :
    Except String (Pred × List String) :=
  match fuel with
  | 0 => .error "out of fuel"
  | fuel + 1 => do
    let ts ← eatT "in" ts
    let (haystack, ts') ← parseExpList fuel ts
    if haystack.isEmpty then .error "empty list"
    else .ok (.inOp needle haystack, ts')

  termination_by structural fuel
end

/-- `Parser.parseAs`: an optional `as identifier` suffix (`""` when
absent). -/
def parseAs (ts : List String) : Except String (String × List String) :=
  if peekT ts = "as" then eatIdentifierT ts.tail
  else .ok ("", ts)

/-- `Parser.parseSelectElem`: an expression with an optional alias. -/
def parseSelectElem (fuel : Nat) (exprs : List Expr)
    (aliases : List (String × Expr)) (ts : List String) :
    Except String (List Expr × List (String × Expr) × List String) :=
  do
    let (expression, ts) ← parseExpression fuel ts
    let (aliasName, ts') ← parseAs ts
    if aliasName ≠ "" then
      .ok (exprs ++ [expression], aliasInsert aliases aliasName expression, ts')
    else
      .ok (exprs ++ [expression], aliases, ts')

/-- The comma loop of `Parser.parseSelectList`. -/
def parseSelectListLoop (fuel : Nat) (exprs : List Expr)
    (aliases : List (String × Expr)) (ts : List String) :
    Except String (List Expr × List (String × Expr) × List String) :=
  match fuel with
  | 0 => .error "out of fuel"
  | fuel + 1 =>
    if peekT ts = "," then do
      let (exprs', aliases', ts') ← parseSelectElem fuel exprs aliases ts.tail
      parseSelectListLoop fuel exprs' aliases' ts'
    else .ok (exprs, aliases, ts)

/-- `Parser.parseSelectList`. -/
def parseSelectList (fuel : Nat) (ts : List String) :
    Except String (List Expr × List (String × Expr) × List String) :=
  do
    let (exprs, aliases, ts) ← parseSelectElem fuel [] [] ts
    parseSelectListLoop fuel exprs aliases ts

/-- `Parser.parseFrom`: a hex address. -/
def parseFromT (ts : List String) : Except String (FromClause × List String) :=
  do
    let (from_, ts') ← parseHexT ts
    .ok (⟨from_⟩, ts')

/-- `Parser.parseBlockRef`. -/
def parseBlockRefT (ts : List String) : Except String (BlockRef × List String) :=
  do
    let (blockNum, ts') ← eatIntLiteralT ts
    .ok (NewBlockRef blockNum, ts')

/-- `Parser.parseGroupByElem`: `blocks(n)` / `transactions(n)` (each at
most once) or a grouping attribute. -/
def parseGroupByElem (fuel : Nat) (groupBy : GroupByClause) (ts : List String) :
    Except String (GroupByClause × List String) :=
  let token := peekT ts
  if token = "blocks" || token = "transactions" then do
    let ts ← eatT "(" ts.tail
    let (value, ts) ← eatIntLiteralT ts
    let ts ← eatT ")" ts
    if token = "blocks" then
      if groupBy.blocksCount.isSome then .error "can only group once by blocks"
      else .ok ({ groupBy with blocksCount := some value }, ts)
    else
      if groupBy.transactionsCount.isSome then
        .error "can only group once by transactions"
      else .ok ({ groupBy with transactionsCount := some value }, ts)
  else do
    let (attrParts, ts') ← parseAttribute fuel ts
    .ok ({ groupBy with attributes := groupBy.attributes ++ [attrParts] }, ts')

/-- The comma loop of `Parser.parseGroupBy`. -/
def parseGroupByLoop (fuel : Nat) (groupBy : GroupByClause) (ts : List String) :
    Except String (GroupByClause × List String) :=
  match fuel with
  | 0 => .error "out of fuel"
  | fuel + 1 =>
    if peekT ts = "," then do
      let (groupBy', ts') ← parseGroupByElem fuel groupBy ts.tail
      parseGroupByLoop fuel groupBy' ts'
    else .ok (groupBy, ts)

/-- `Parser.parseGroupBy`. -/
def parseGroupBy (fuel : Nat) (ts : List String) :
    Except String (GroupByClause × List String) :=
  do
    let (groupBy, ts) ← parseGroupByElem fuel NewGroupByClause ts
    parseGroupByLoop fuel groupBy ts

/-- `Parser.parseWhere`: `eat "where"` then an or-condition. -/
def parseWhere (fuel : Nat) (ts : List String) :
    Except String (Pred × List String) :=
  do
    let ts ← eatT "where" ts
    parseOrCondition fuel ts

/-- `Parser.ParseSelect`: `select` select-list `from` hex, then the
optional clauses probed strictly in the order `where`, `since`, `until`,
`limit`, `offset`, `group by`; the statement is returned without requiring
the token stream to be exhausted. -/
def ParseSelect (fuel : Nat) (ts : List String) :
    Except String (SelectStatement × List String) :=
  do
    let ts ← eatT "select" ts
    let (selected, aliases, ts) ← parseSelectList fuel ts
    let ts ← eatT "from" ts
    let (fromClause, ts) ← parseFromT ts
    let (predicate, ts) ←
      if peekT ts = "where" then do
        let (p, ts') ← parseWhere fuel ts
        pure (some p, ts')
      else pure ((none : Option Pred), ts)
    let (since, ts) ←
      if peekT ts = "since" then do
        let (b, ts') ← parseBlockRefT ts.tail
        pure (some b, ts')
      else pure ((none : Option BlockRef), ts)
    let (until_, ts) ←
      if peekT ts = "until" then do
        let (b, ts') ← parseBlockRefT ts.tail
        pure (some b, ts')
      else pure ((none : Option BlockRef), ts)
    let (limit, ts) ←
      if peekT ts = "limit" then do
        let (v, ts') ← eatIntLiteralT ts.tail
        pure (some v, ts')
      else pure ((none : Option Int), ts)
    let (offset, ts) ←
      if peekT ts = "offset" then do
        let (v, ts') ← eatIntLiteralT ts.tail
        pure (some v, ts')
      else pure ((none : Option Int), ts)
    let (groupBy, ts) ←
      if peekT ts = "group by" then do
        let (g, ts') ← parseGroupBy fuel ts.tail
        pure (some g, ts')
      else pure ((none : Option GroupByClause), ts)
    .ok (⟨selected, fromClause, predicate, since, until_, limit, offset,
          groupBy, aliases⟩, ts)

/-! ## Concrete environments and spec-side definitions used by the claims -/

/-- The environment of the evaluator sanity scenario: `msg.value → 7`,
`msg.sender → 0x42`, builtins `sum(x) = x` and `count(x) = 1`.  (Attribute
lookup follows the spec's `Env.Lookup` contract; see `Env.lookupAttr`.) -/
def envSanity : Env where
  lookupAttr := fun parts =>
    if parts = ["msg", "value"] then .ok (.intV 7)
    else if parts = ["msg", "sender"] then .ok (.intV 0x42)
    else .err ("unresolved attribute " ++ String.intercalate "." parts)
  functions := fun name =>
    if name = "sum" then
      some (fun args =>
        match args with
        | [v] => .ok v
        | _ => .err "sum expects one argument")
    else if name = "count" then some (fun _ => .ok (.intV 1))
    else none

/-- An environment with no attributes and no builtins. -/
def envEmpty : Env where
  lookupAttr := fun parts =>
    .err ("unresolved attribute " ++ String.intercalate "." parts)
  functions := fun _ => none

/-- Spec-side definition (for comparison with `IsValidIdentifier`): a match
of the ASCII regular expression `[A-Za-z_][A-Za-z0-9_]*`, as the claim
states it. -/
def matchesAsciiIdentRegex (s : String) : Bool :=
  match s.data with
  | [] => false
  | c :: cs =>
    (('A' ≤ c && c ≤ 'Z') || ('a' ≤ c && c ≤ 'z') || c = '_')
      && cs.all (fun d =>
        ('A' ≤ d && d ≤ 'Z') || ('a' ≤ d && d ≤ 'z')
          || ('0' ≤ d && d ≤ '9') || d = '_')

/-- The clause keywords probed by `ParseSelect` after the `from` clause. -/
def optionalClauseKeywords : List String :=
  ["where", "since", "until", "limit", "offset", "group by"]

end EMQL

namespace EMQL

/-! # Theorems

One theorem (plus witness or counterexample where required) per claim. -/

/-- **C1** (code bug exhibited).  With the sanity environment
(`msg.value → 7`, `msg.sender → 0x42`, `sum(x)=x`, `count(x)=1`): the
lexed and parsed expression `sum(msg.value) * 10 + 1` does evaluate to the
integer 71; but the lexed and parsed predicate
`msg.value > 5 and msg.sender = 0x42` does NOT evaluate to `true` —
`ExecuteBool` returns the error `cannot cast true to int`, because
`GenericBinaryOperator.Apply` requires both operands to be `IntValue`s
even when the operator is the boolean `and`/`or` (whose `wrapBoolBinary`
closure would in turn call `ToBool` on those very `IntValue`s). -/
theorem c1_evaluator_sanity :
    tokenize 100 "sum(msg.value) * 10 + 1" =
      .done ["sum", "(", "msg", ".", "value", ")", "*", "10", "+", "1"] ∧
    (parseExpression 100
        ["sum", "(", "msg", ".", "value", ")", "*", "10", "+", "1"]).map
        (fun p => evalExpr envSanity p.1) = .ok (.ok (.intV 71)) ∧
    tokenize 100 "msg.value > 5 and msg.sender = 0x42" =
      .done ["msg", ".", "value", ">", "5", "and", "msg", ".", "sender", "=",
             "0x42"] ∧
    (parseOrCondition 100
        ["msg", ".", "value", ">", "5", "and", "msg", ".", "sender", "=",
         "0x42"]).map (fun p => evalPredBool envSanity p.1) =
      .ok (.err "cannot cast true to int") := by
  refine ⟨rfl, rfl, rfl, rfl⟩

/-- **C2** (counterexample).  Applying `/` to the `IntValue`s −7 and 2
yields −4, not the toward-zero-truncated quotient −3 (`Int.tdiv`), and `%`
yields 1, not the truncated-division remainder −1 (`Int.tmod`): the
operators follow `big.Int.Div`/`big.Int.Mod`, which are Euclidean. -/
theorem c2_division_not_truncated :
    genericBinaryApply "/" (.intV (-7)) (.intV 2) = .ok (.intV (-4)) ∧
    Int.tdiv (-7) 2 = -3 ∧
    genericBinaryApply "%" (.intV (-7)) (.intV 2) = .ok (.intV 1) ∧
    Int.tmod (-7) 2 = -1 := by
  refine ⟨by decide, by decide, by decide, by decide⟩

/-- **C2** (amended).  For integers `a` and `b` with `b ≠ 0`, `/` and `%`
on `IntValue`s implement Euclidean division: the quotient `q` and
remainder `r` satisfy `a = b * q + r` with `0 ≤ r < |b|` (the remainder is
never negative, regardless of the signs of `a` and `b`). -/
theorem c2_division_euclidean (a b : Int) (hb : b ≠ 0) :
    ∃ q r : Int,
      genericBinaryApply "/" (.intV a) (.intV b) = .ok (.intV q) ∧
      genericBinaryApply "%" (.intV a) (.intV b) = .ok (.intV r) ∧
      a = b * q + r ∧ 0 ≤ r ∧ r < |b| := by
  refine ⟨Int.ediv a b, Int.emod a b, ?_, ?_, ?_, ?_, ?_⟩
  · simp [genericBinaryApply, Value.IsInt, valueToInt, arithApply,
      arithBinaryNames, hb]
  · simp [genericBinaryApply, Value.IsInt, valueToInt, arithApply,
      arithBinaryNames, hb]
  · exact (Int.ediv_add_emod a b).symm
  · exact Int.emod_nonneg a hb
  · exact Int.emod_lt a hb

/-- Witness for `c2_division_euclidean` at `a = -7`, `b = 2`. -/
theorem c2_division_euclidean_witness :
    ∃ q r : Int,
      genericBinaryApply "/" (.intV (-7)) (.intV 2) = .ok (.intV q) ∧
      genericBinaryApply "%" (.intV (-7)) (.intV 2) = .ok (.intV r) ∧
      (-7 : Int) = 2 * q + r ∧ 0 ≤ r ∧ r < |(2 : Int)| :=
  c2_division_euclidean (-7) 2 (by decide)

/-- **C3** (counterexample).  Applying `/` to the `IntValue`s 1 and 0 does
not return an error result: it is a Go runtime panic (`big.Int.Div` panics
with "division by zero"), modelled as the `crash` outcome, distinct from
every `err` result; the same holds for `%`, and the panic aborts a
surrounding `Execute` instead of surfacing as its error. -/
theorem c3_division_by_zero_crashes :
    genericBinaryApply "/" (.intV 1) (.intV 0) = .crash "division by zero" ∧
    genericBinaryApply "%" (.intV 1) (.intV 0) = .crash "division by zero" ∧
    evalExpr envEmpty (.binApp "+" (.binApp "/" (.intLit 1) (.intLit 0))
        (.intLit 5)) = .crash "division by zero" := by
  refine ⟨by decide, by decide, rfl⟩

/-- **C3** (amended).  For every integer `a`, applying `/` or `%` with
right operand 0 panics with "division by zero" (a crash, not a returned
error), and the panic propagates through enclosing evaluations as a crash
of the topmost `Execute` call. -/
theorem c3_division_by_zero_panics (a : Int) :
    genericBinaryApply "/" (.intV a) (.intV 0) = .crash "division by zero" ∧
    genericBinaryApply "%" (.intV a) (.intV 0) = .crash "division by zero" ∧
    evalExpr envEmpty (.binApp "+" (.binApp "/" (.intLit a) (.intLit 0))
        (.intLit 5)) = .crash "division by zero" := by
  refine ⟨?_, ?_, ?_⟩
  · simp [genericBinaryApply, Value.IsInt, valueToInt, arithApply,
      arithBinaryNames]
  · simp [genericBinaryApply, Value.IsInt, valueToInt, arithApply,
      arithBinaryNames]
  · simp [evalExpr, genericBinaryApply, Value.IsInt, valueToInt, arithApply,
      arithBinaryNames]

/-- Skipping whitespace passes over any all-whitespace prefix. -/
theorem dropWhile_space_append (sep l : List Char)
    (h : ∀ c ∈ sep, goIsSpace c = true) :
    (sep ++ l).dropWhile goIsSpace = l.dropWhile goIsSpace := by
  induction sep with
  | nil => rfl
  | cons c cs ih =>
    simp only [List.cons_append, List.dropWhile_cons, h c (by simp)]
    exact ih (fun d hd => h d (by simp [hd]))

/-- **C4** (counterexample).  The two-word fusion is NOT applied to every
casing: lexing `GROUP BY` yields the two verbatim tokens `GROUP`, `BY`
(neither fused nor lower-cased), and `Group By` and `group BY` similarly
stay unfused — `group` and `by` are not individually in the keyword table,
so they are never case-folded, and the fusion compares the emitted tokens
against the lower-case spellings. -/
theorem c4_fusion_not_case_insensitive :
    tokenize 100 "GROUP BY" = .done ["GROUP", "BY"] ∧
    tokenize 100 "Group By" = .done ["Group", "By"] ∧
    tokenize 100 "group BY" = .done ["group", "BY"] := by
  exact ⟨rfl, rfl, rfl⟩

/-- **C4** (amended).  The fusion fires exactly on the lower-case
spelling: for the two words `group` and `by` written in lower case and
separated by any nonempty run of whitespace (spaces, tabs, newlines,
carriage returns), the lexer emits the single fused token `group by`.
Single-word reserved keywords are matched case-insensitively and emitted
lower-cased (`SeLeCt FROM WheRe nOt` → `select from where not`), while
non-keyword identifiers keep their case (`Sum Tx` → `Sum Tx`). -/
theorem c4_group_by_fusion_lowercase (sep : List Char) (hne : sep ≠ [])
    (hws : ∀ c ∈ sep, c = ' ' ∨ c = '\t' ∨ c = '\n' ∨ c = '\r') :
    tokenize 100 (String.mk ('g':: 'r':: 'o':: 'u':: 'p':: (sep ++ ['b', 'y']))) =
      .done ["group by"] ∧
    tokenize 100 "SeLeCt FROM WheRe nOt" = .done ["select", "from", "where", "not"] ∧
    tokenize 100 "Sum Tx" = .done ["Sum", "Tx"] := by
  refine ⟨?_, rfl, rfl⟩
  obtain ⟨c0, sep', rfl⟩ : ∃ c0 sep', sep = c0 :: sep' := by
    cases sep with
    | nil => exact absurd rfl hne
    | cons a l => exact ⟨a, l, rfl⟩
  have h0 : identCont c0 = false := by
    rcases hws c0 (by simp) with rfl | rfl | rfl | rfl <;> decide
  have hsp0 : goIsSpace c0 = true := by
    rcases hws c0 (by simp) with rfl | rfl | rfl | rfl <;> decide
  have hws' : ∀ c ∈ sep', goIsSpace c = true := by
    intro c hc
    rcases hws c (by simp [hc]) with rfl | rfl | rfl | rfl <;> decide
  have e1 : readTokenGo 100 ('g':: 'r':: 'o':: 'u':: 'p'::c0::(sep' ++ ['b','y'])) "" =
      .ok ⟨c0 :: (sep' ++ ['b','y']), true, "group"⟩ := by
    show readTokenGo (99+1) _ _ = _
    unfold readTokenGo
    simp [List.dropWhile_cons, List.takeWhile_cons, h0,
      (by decide : goIsSpace 'g' = false),
      (by decide : identCont 'g' = true), (by decide : identCont 'r' = true),
      (by decide : identCont 'o' = true), (by decide : identCont 'u' = true),
      (by decide : identCont 'p' = true),
      (by decide : goIsLetter 'g' = true),
      (by decide : ('g' : Char) ≠ '"'),
      (by decide : goToLower (String.mk ['g','r','o','u','p']) = "group"),
      caseInsensitiveTokens]
  have e2 : readTokenGo 99 (c0 :: (sep' ++ ['b','y'])) "group" =
      .ok ⟨[], true, "by"⟩ := by
    show readTokenGo (98+1) _ _ = _
    unfold readTokenGo
    rw [List.dropWhile_cons]
    rw [if_pos hsp0, dropWhile_space_append sep' _ hws']
    simp [(by decide : goIsSpace 'b' = false),
      (by decide : goIsLetter 'b' = true),
      (by decide : ('b' : Char) ≠ '"'),
      (by decide : identCont 'b' = true), (by decide : identCont 'y' = true),
      (by decide : goToLower (String.mk ['b','y']) = "by"),
      caseInsensitiveTokens]
  have e3 : readTokenGo 99 ([] : List Char) "by" = .ok ⟨[], false, "by"⟩ := rfl
  have e1' : readTokenGo 100
      ((String.mk ('g':: 'r':: 'o':: 'u':: 'p'::c0::(sep' ++ ['b','y']))).data) "" =
      .ok ⟨c0 :: (sep' ++ ['b','y']), true, "group"⟩ := e1
  show tokenize 100 _ = _
  unfold tokenize NewLexer
  simp only [List.cons_append]
  rw [e1']
  show drain (99+1) _ _ = _
  unfold drain NextToken
  simp only [e2, e3]
  rfl

/-- Witness for `c4_group_by_fusion_lowercase` at `sep = [' ']`. -/
theorem c4_group_by_fusion_lowercase_witness :
    tokenize 100 (String.mk ('g':: 'r':: 'o':: 'u':: 'p':: ([' '] ++ ['b', 'y']))) =
      .done ["group by"] ∧
    tokenize 100 "SeLeCt FROM WheRe nOt" = .done ["select", "from", "where", "not"] ∧
    tokenize 100 "Sum Tx" = .done ["Sum", "Tx"] :=
  c4_group_by_fusion_lowercase [' '] (by decide) (by decide)

/-- **C5** (counterexample).  When the unterminated string is the FIRST
token of the query, no `NextToken` call ever returns the lexical error:
`NewLexer` performs the first `readToken` itself and discards its error, so
draining `"abc` (open quote never closed) ends cleanly after producing one
empty token — the claim's "this holds … including as its first token"
fails. -/
theorem c5_first_token_error_swallowed :
    NewLexer 100 "\"abc" = .ok ⟨[], true, ""⟩ ∧
    tokenize 100 "\"abc" = .done [""] := by
  exact ⟨rfl, rfl⟩

/-- **C5** (amended).  When an unterminated string is reached while
pre-reading the token after an already-buffered one, `NextToken` returns
the error `reached EOS inside string` — a bare constant message carrying no
position — and the buffered token is discarded with it (`select "abc` fails
with no tokens delivered; `where x > "abc` delivers `where`, `x` and then
fails, losing `>`).  A query whose final character is the opening quote
panics (nil-rune peek) while pre-reading, so not even the preceding token
is delivered; a first-token unterminated string is swallowed entirely (see
the counterexample). -/
theorem c5_unterminated_string_error :
    tokenize 100 "select \"abc" = .failed [] "reached EOS inside string" ∧
    tokenize 100 "where x > \"abc" =
      .failed ["where", "x"] "reached EOS inside string" ∧
    tokenize 100 "select \"" = .crashed [] := by
  exact ⟨rfl, rfl, rfl⟩

/-- The loop of `IsValidIdentifier` beyond the first rune accepts exactly
letters, digits and underscores. -/
theorem validIdentGo_rest (cs : List Char) :
    validIdentGo cs false = true ↔
      ∀ d ∈ cs, (goIsLetter d || goIsDigit d || d = '_') = true := by
  induction cs with
  | nil => simp [validIdentGo]
  | cons d ds ih =>
    by_cases hL : goIsLetter d <;> by_cases hD : goIsDigit d <;>
      by_cases hU : d = '_' <;>
      simp [validIdentGo, hL, hD, hU, ih]

/-- **C6** (counterexample).  `IsValidIdentifier` is not the ASCII regular
expression `[A-Za-z_][A-Za-z0-9_]*`: it accepts the non-ASCII string `é`
(a Unicode letter under `unicode.IsLetter`), which the ASCII regex
rejects. -/
theorem c6_accepts_non_ascii :
    IsValidIdentifier "é" = true ∧ matchesAsciiIdentRegex "é" = false := by
  exact ⟨by decide, by decide⟩

/-- **C6** (amended).  `IsValidIdentifier(s)` is true iff `s` is nonempty,
its first rune is a Unicode letter (`unicode.IsLetter`) or underscore, and
every later rune is a Unicode letter, Unicode digit or underscore — the
letter and digit classes are Unicode-wide, not ASCII.  In particular the
claim's concrete examples all hold (`abc`, `_abc`, `abc1`, `a_b2_c`
accepted; `1abc`, `$abc`, `abc$`, `""` rejected), but `é` is also
accepted. -/
theorem c6_identifier_characterization :
    (∀ (c : Char) (cs : List Char),
      IsValidIdentifier (String.mk (c :: cs)) = true ↔
        (goIsLetter c || c = '_') = true ∧
        ∀ d ∈ cs, (goIsLetter d || goIsDigit d || d = '_') = true) ∧
    IsValidIdentifier "" = false ∧
    IsValidIdentifier "abc" = true ∧ IsValidIdentifier "_abc" = true ∧
    IsValidIdentifier "abc1" = true ∧ IsValidIdentifier "a_b2_c" = true ∧
    IsValidIdentifier "1abc" = false ∧ IsValidIdentifier "$abc" = false ∧
    IsValidIdentifier "abc$" = false ∧ IsValidIdentifier "é" = true := by
  refine ⟨?_, by decide, by decide, by decide, by decide, by decide,
    by decide, by decide, by decide, by decide⟩
  intro c cs
  by_cases hL : goIsLetter c <;> by_cases hU : c = '_' <;>
    simp [IsValidIdentifier, validIdentGo, hL, hU, validIdentGo_rest]

/-- **C7** (counterexample).  A `where` clause appearing after `limit` —
out of the enforced order — is NOT rejected: `ParseSelect` returns the
statement successfully, with the out-of-order clause simply left
unconsumed (and `Where` empty). -/
theorem c7_out_of_order_clause_accepted :
    ParseSelect 100
        ["select", "x", "from", "0xaa", "limit", "1", "where", "x", ">", "2"] =
      .ok (⟨[.attr ["x"]], ⟨0xaa⟩, none, none, none, some 1, none, none, []⟩,
           ["where", "x", ">", "2"]) := by
  exact rfl

/-- **C7** (amended).  `ParseSelect` probes the optional clauses once
each, in the fixed order `where, since, until, limit, offset, group by`:
a query with the clauses in that order populates them all; a clause
encountered out of order (`offset` before `limit`) or a second time
(`limit … limit …`) is not parsed as a clause — it is left with the
trailing tokens and silently ignored, so the statement cannot carry
reordered or repeated clauses, but such inputs are accepted rather than
rejected. -/
theorem c7_clause_order_enforced_linearly :
    ParseSelect 100
        ["select", "x", "from", "0xaa", "where", "x", ">", "2", "since",
         "1000", "until", "1500", "limit", "5", "offset", "2", "group by",
         "blocks", "(", "3", ")", ",", "transactions", "(", "4", ")", ",",
         "msg", ".", "sender"] =
      .ok (⟨[.attr ["x"]], ⟨0xaa⟩,
            some (.comp ">" (.attr ["x"]) (.intLit 2)),
            some ⟨1000⟩, some ⟨1500⟩, some 5, some 2,
            some ⟨some 3, some 4, [["msg", "sender"]]⟩, []⟩, []) ∧
    ParseSelect 100 ["select", "x", "from", "0xaa", "offset", "2", "limit", "1"] =
      .ok (⟨[.attr ["x"]], ⟨0xaa⟩, none, none, none, none, some 2, none, []⟩,
           ["limit", "1"]) ∧
    ParseSelect 100 ["select", "x", "from", "0xaa", "limit", "1", "limit", "2"] =
      .ok (⟨[.attr ["x"]], ⟨0xaa⟩, none, none, none, some 1, none, none, []⟩,
           ["limit", "2"]) := by
  exact ⟨rfl, rfl, rfl⟩

/-- **C8** (counterexample).  `a or b and c` does NOT parse: after the
expression `a`, the parser requires `in`, `is` or a comparison operator
before a boolean connective, so a bare attribute is not a predicate and
`parseOrCondition` fails with `expected predicate, token was or`. -/
theorem c8_bare_identifier_not_predicate :
    parseOrCondition 100 ["a", "or", "b", "and", "c"] =
      .error "expected predicate, token was or" := by
  exact rfl

/-- **C8** (amended).  The arithmetic precedence and associativity
examples hold as claimed — `1 + 2 * 3` is `(+ 1 (* 2 3))`, `-a * b` is
`(* (- a) b)`, `1 - 2 - 3` is `(- (- 1 2) 3)` — and `or`/`and` precedence
holds for predicate operands: `a > 0 or b > 0 and c > 0` parses as
`(or (> a 0) (and (> b 0) (> c 0)))`; but the bare-identifier form
`a or b and c` itself is a parse error. -/
theorem c8_precedence_and_associativity :
    parseExpression 100 ["1", "+", "2", "*", "3"] =
      .ok (.binApp "+" (.intLit 1) (.binApp "*" (.intLit 2) (.intLit 3)), []) ∧
    parseExpression 100 ["-", "a", "*", "b"] =
      .ok (.binApp "*" (.unApp "-" (.attr ["a"])) (.attr ["b"]), []) ∧
    parseExpression 100 ["1", "-", "2", "-", "3"] =
      .ok (.binApp "-" (.binApp "-" (.intLit 1) (.intLit 2)) (.intLit 3), []) ∧
    parseOrCondition 100
        ["a", ">", "0", "or", "b", ">", "0", "and", "c", ">", "0"] =
      .ok (.boolBin "or" (.comp ">" (.attr ["a"]) (.intLit 0))
            (.boolBin "and" (.comp ">" (.attr ["b"]) (.intLit 0))
              (.comp ">" (.attr ["c"]) (.intLit 0))), []) := by
  exact ⟨rfl, rfl, rfl, rfl⟩

/-- `do`-bind over `Except` reduces on an `ok` scrutinee. -/
theorem exceptBind_ok {α β : Type} (a : α) (f : α → Except String β) :
    (do let x ← Except.ok a; f x) = f a := rfl

/-- `pure` over `Except` is `ok`. -/
theorem exceptPure_eq {α : Type} (a : α) : (pure a : Except String α) = .ok a := rfl

/-- **C9** (confirmed).  `ParseSelect` never requires the token stream to
be exhausted: for the complete statement `select x from 0xaa` followed by
ANY token list that does not begin with one of the optional-clause
keywords, parsing succeeds, returns exactly the statement of the prefix,
and leaves the trailing tokens unconsumed without reporting any error. -/
theorem c9_trailing_tokens_ignored (ts : List String)
    (h : ∀ k ∈ optionalClauseKeywords, peekT ts ≠ k) :
    ParseSelect 100 (["select", "x", "from", "0xaa"] ++ ts) =
      .ok (⟨[.attr ["x"]], ⟨0xaa⟩, none, none, none, none, none, none, []⟩, ts) := by
  have h1 : peekT ts ≠ "where" := h _ (by simp [optionalClauseKeywords])
  have h2 : peekT ts ≠ "since" := h _ (by simp [optionalClauseKeywords])
  have h3 : peekT ts ≠ "until" := h _ (by simp [optionalClauseKeywords])
  have h4 : peekT ts ≠ "limit" := h _ (by simp [optionalClauseKeywords])
  have h5 : peekT ts ≠ "offset" := h _ (by simp [optionalClauseKeywords])
  have h6 : peekT ts ≠ "group by" := h _ (by simp [optionalClauseKeywords])
  have s1 : eatT "select" (["select", "x", "from", "0xaa"] ++ ts) =
      .ok (["x", "from", "0xaa"] ++ ts) := rfl
  have s2 : parseSelectList 100 (["x", "from", "0xaa"] ++ ts) =
      .ok ([.attr ["x"]], [], ["from", "0xaa"] ++ ts) := rfl
  have s3 : eatT "from" (["from", "0xaa"] ++ ts) = .ok (["0xaa"] ++ ts) := rfl
  have s4 : parseFromT (["0xaa"] ++ ts) = .ok (⟨0xaa⟩, ts) := rfl
  unfold ParseSelect
  rw [s1]
  rw [exceptBind_ok]
  rw [s2]
  rw [exceptBind_ok]
  simp only []
  rw [s3]
  rw [exceptBind_ok]
  rw [s4]
  rw [exceptBind_ok]
  simp only []
  rw [if_neg h1]
  rw [exceptPure_eq]
  rw [exceptBind_ok]
  simp only []
  rw [if_neg h2]
  rw [exceptPure_eq]
  rw [exceptBind_ok]
  simp only []
  rw [if_neg h3]
  rw [exceptPure_eq]
  rw [exceptBind_ok]
  simp only []
  rw [if_neg h4]
  rw [exceptPure_eq]
  rw [exceptBind_ok]
  simp only []
  rw [if_neg h5]
  rw [exceptPure_eq]
  rw [exceptBind_ok]
  simp only []
  rw [if_neg h6]
  rw [exceptPure_eq]
  rw [exceptBind_ok]

/-- Witness for `c9_trailing_tokens_ignored` with trailing tokens
`) select 5`. -/
theorem c9_trailing_tokens_ignored_witness :
    ParseSelect 100 (["select", "x", "from", "0xaa"] ++ [")", "select", "5"]) =
      .ok (⟨[.attr ["x"]], ⟨0xaa⟩, none, none, none, none, none, none, []⟩,
           [")", "select", "5"]) :=
  c9_trailing_tokens_ignored [")", "select", "5"] (by decide)

/-- **C10** (confirmed).  Evaluating an `In` predicate raises no
type-mismatch error: if the needle evaluates to `v` and the haystack
elements evaluate to `vs`, `ExecuteBool` returns (without error) whether
some element `Equals` the needle; and `Value.Equals` across different
variants is simply `false`, never an error. -/
theorem c10_in_never_type_mismatch (env : Env) (needle : Expr)
    (haystack : List Expr) (v : Value) (vs : List Value)
    (hn : evalExpr env needle = .ok v)
    (hh : evalExprList env haystack = .ok vs) :
    evalPredBool env (.inOp needle haystack) =
      .ok (vs.any (fun w => v.Equals w)) ∧
    ∀ w₁ w₂ : Value, w₁.variant ≠ w₂.variant → w₁.Equals w₂ = false := by
  constructor
  · simp [evalPredBool, evalInBool, hn, hh]
  · intro w₁ w₂ hv
    cases w₁ <;> cases w₂ <;> simp [Value.variant] at hv ⊢ <;>
      simp [Value.Equals]

/-- Witness for `c10_in_never_type_mismatch`: `1 in ("a", true, 2)` — the
operands are of three different variants, yet evaluation succeeds and
returns `false`. -/
theorem c10_in_never_type_mismatch_witness :
    evalPredBool envEmpty
        (.inOp (.intLit 1) [.strLit "a", .boolLit true, .intLit 2]) =
      .ok false := by
  have h := (c10_in_never_type_mismatch envEmpty (.intLit 1)
    [.strLit "a", .boolLit true, .intLit 2] (.intV 1)
    [.strV "a", .boolV true, .intV 2] rfl rfl).1
  simpa using h

end EMQL
